import Mathlib

/-!
Verification of the checkpoint/watermark coordination core of
`target-postgres` (the enhanced `StreamTracker` of
`src/target_postgres/stream_tracker.py`), as a shallow embedding.

Python dicts are embedded as association lists (`List (String × α)`,
insertion ordered, keys unique in reachable states), the Python `set`
`streams_added_to` as a `List String`, the `deque` state queue as a
`List CheckpointEntry` with the front at the head, and raised exceptions
as `Except` values that carry the tracker state at the moment of the
raise (Python leaves `self` in exactly that state when an exception
propagates).  Writing a line to stdout is embedded as returning the list
of payloads written during the call.
-/

/-- A JSON-like value: the opaque payload of a Singer STATE message
(`line_data['value']`).  `null` also stands for Python `None`.  Arrays and
objects are encoded first-order: `arrCons head tail` is a non-empty array
(`tail` is the rest of the array), `objCons key value rest` a non-empty
object, and `arrNil`/`objNil` are `[]`/`{}`. -/
inductive JsonVal where
  | null : JsonVal
  | bool : Bool → JsonVal
  | num : Int → JsonVal
  | str : String → JsonVal
  | arrNil : JsonVal
  | arrCons : JsonVal → JsonVal → JsonVal
  | objNil : JsonVal
  | objCons : String → JsonVal → JsonVal → JsonVal
deriving DecidableEq, Repr

/-- Python truthiness of a JSON-like value (`if emittable_state:`): `None`,
`False`, `0`, `""`, `[]` and `{}` are falsy. -/
def truthy : JsonVal → Bool
  | .null => false
  | .bool b => b
  | .num n => decide (n ≠ 0)
  | .str s => decide (s ≠ "")
  | .arrNil => false
  | .arrCons _ _ => true
  | .objNil => false
  | .objCons _ _ _ => true

/-- Modelled from the spec: the external `singer.statediff` collaborator is
"a content-equality dedup check" / "deep structural diff"; its `diff` list is
non-empty exactly when the two payloads differ structurally.  The collaborator
itself is a third-party library, not part of this repository. -/
def statediffNonempty (a b : JsonVal) : Bool :=
  decide (a ≠ b)

/-- One queued STATE message: `{'state': <state blob>, 'watermark': number}`. -/
structure CheckpointEntry where
  state : JsonVal
  watermark : Nat
deriving DecidableEq, Repr

/-- Lookup in an association list (Python `d.get(k)` / `d[k]`). -/
def lookupA {α : Type} (k : String) : List (String × α) → Option α
  | [] => none
  | (k', v) :: rest => if k' = k then some v else lookupA k rest

/-- Lookup with default 0 (Python `d.get(k, 0)`). -/
def lookupD (k : String) (l : List (String × Nat)) : Nat :=
  (lookupA k l).getD 0

/-- Insert-or-update in an association list (Python `d[k] = v`): an existing
key keeps its position, a new key is appended at the end. -/
def updAssoc {α : Type} (k : String) (v : α) : List (String × α) → List (String × α)
  | [] => [(k, v)]
  | (k', v') :: rest => if k' = k then (k, v) :: rest else (k', v') :: updAssoc k v rest

/-- Key list after insert-or-update. -/
def insertKey (k : String) (ks : List String) : List String :=
  if k ∈ ks then ks else ks ++ [k]

/-- Python set `add` on the embedded set of stream names. -/
def insertS (s : String) (l : List String) : List String :=
  if s ∈ l then l else l ++ [s]

/-- Python `min(list, default=0)`. -/
def minD : List Nat → Nat
  | [] => 0
  | [x] => x
  | x :: y :: rest => Nat.min x (minD (y :: rest))

/-- The enhanced `StreamTracker`'s state.  `streams` maps a stream name to its
(opaque, here numbered) `BufferedSingerStream` collaborator handle. -/
structure StreamTracker where
  streams : List (String × Nat)
  stream_add_watermarks : List (String × Nat)
  stream_flush_watermarks : List (String × Nat)
  streams_added_to : List String
  state_queue : List CheckpointEntry
  message_counter : Nat
  last_emitted_state : JsonVal
  emit_states : Bool
  max_watermark_lag : Nat
deriving DecidableEq, Repr

/-- `StreamTracker.__init__` (default `max_watermark_lag=1000000`). -/
def initState (emit_states : Bool) (max_watermark_lag : Nat) : StreamTracker :=
  { streams := []
    stream_add_watermarks := []
    stream_flush_watermarks := []
    streams_added_to := []
    state_queue := []
    message_counter := 0
    last_emitted_state := .null
    emit_states := emit_states
    max_watermark_lag := max_watermark_lag }

/-- `StreamTracker.register_stream`. -/
def registerStream (stream : String) (buffered_stream : Nat) (t : StreamTracker) : StreamTracker :=
  { t with
    streams := updAssoc stream buffered_stream t.streams
    stream_flush_watermarks := updAssoc stream 0 t.stream_flush_watermarks }

/-- The `TargetError` message raised for a record on an unregistered stream. -/
def unregisteredStreamError (stream : String) : String :=
  "A record for stream " ++ stream ++ " was encountered before a corresponding schema"

/-- `StreamTracker.handle_record_message`.  The error carries the tracker
state at the raise (unchanged: the check precedes every mutation).  The
`add_record_message` collaborator call mutates only the buffer collaborator. -/
def handleRecordMessage (stream : String) (t : StreamTracker) :
    Except (String × StreamTracker) StreamTracker :=
  if (lookupA stream t.streams).isSome then
    .ok { t with
          message_counter := t.message_counter + 1
          streams_added_to := insertS stream t.streams_added_to
          stream_add_watermarks := updAssoc stream (t.message_counter + 1) t.stream_add_watermarks }
  else
    .error (unregisteredStreamError stream, t)

/-- `StreamTracker._safe_flush_threshold`. -/
def safeFlushThreshold (t : StreamTracker) : Nat :=
  minD ((t.stream_flush_watermarks.filter
    (fun p => decide (p.1 ∈ t.streams_added_to))).map Prod.snd)

/-- The `while` loop of `_emit_safe_queued_states`: split the queue into the
popped prefix and the remaining queue. -/
def popSafe (force : Bool) (threshold : Nat) : List CheckpointEntry →
    List CheckpointEntry × List CheckpointEntry
  | [] => ([], [])
  | e :: rest =>
    if force || decide (e.watermark ≤ threshold) then
      let pr := popSafe force threshold rest
      (e :: pr.1, pr.2)
    else
      ([], e :: rest)

/-- `StreamTracker._emit_safe_queued_states`.  Returns the new state and the
list of payload lines written to stdout during the call. -/
def emitSafeQueuedStates (force : Bool) (t : StreamTracker) : StreamTracker × List JsonVal :=
  let pr := popSafe force (safeFlushThreshold t) t.state_queue
  let t1 := { t with state_queue := pr.2 }
  match pr.1.getLast? with
  | none => (t1, [])
  | some e =>
    if truthy e.state then
      if statediffNonempty e.state
          (if truthy t1.last_emitted_state then t1.last_emitted_state else .objNil) then
        ({ t1 with last_emitted_state := e.state }, [e.state])
      else
        ({ t1 with last_emitted_state := e.state }, [])
    else
      (t1, [])

/-- `StreamTracker.handle_state_message` (the payload `line_data['value']`
is passed directly). -/
def handleStateMessage (value : JsonVal) (t : StreamTracker) : StreamTracker × List JsonVal :=
  if t.emit_states then
    emitSafeQueuedStates false
      { t with state_queue := t.state_queue ++ [⟨value, t.message_counter⟩] }
  else
    (t, [])

/-- `StreamTracker._write_batch_and_update_watermarks`.  `wb` is the external
`target.write_batch` collaborator, which may raise; `flush_buffer` mutates
only the buffer collaborator.  A missing stream raises (Python `KeyError` on
`self.streams[stream]`) before any mutation. -/
def writeBatchAndUpdateWatermarks (wb : String → Except String Unit) (stream : String)
    (t : StreamTracker) : Except (String × StreamTracker) StreamTracker :=
  match lookupA stream t.streams with
  | none => .error ("KeyError: " ++ stream, t)
  | some _ =>
    match wb stream with
    | .error e => .error (e, t)
    | .ok _ =>
      .ok { t with
            stream_flush_watermarks :=
              updAssoc stream (lookupD stream t.stream_add_watermarks) t.stream_flush_watermarks }

/-- `StreamTracker.flush_stream`. -/
def flushStream (wb : String → Except String Unit) (stream : String) (t : StreamTracker) :
    Except (String × StreamTracker) (StreamTracker × List JsonVal) :=
  match writeBatchAndUpdateWatermarks wb stream t with
  | .error p => .error p
  | .ok t1 => .ok (emitSafeQueuedStates false t1)

/-- The `for stream in streams_to_flush` loop of `flush_streams_if_required`:
flush each stream in order, aborting (with the state reached so far) on the
first write failure. -/
def flushLoop (wb : String → Except String Unit) : List String → StreamTracker →
    Except (String × StreamTracker) StreamTracker
  | [], t => .ok t
  | s :: rest, t =>
    match writeBatchAndUpdateWatermarks wb s t with
    | .error p => .error p
    | .ok t1 => flushLoop wb rest t1

/-- The flush decision of `flush_streams_if_required`: the effective `force`
flag for the emission gate and the set of streams to flush (as a list; the
Python code builds a `set`, iterated in arbitrary order).  `bf` is the
external `buffer_full` collaborator signal keyed by stream name. -/
def streamsToFlushDecision (bf : String → Bool) (force : Bool) (t : StreamTracker) :
    Bool × List String :=
  if t.state_queue.length > 0 ∧
      (t.message_counter : Int) - (safeFlushThreshold t : Int) > (t.max_watermark_lag : Int) then
    (true, t.streams.map Prod.fst)
  else
    (force, (t.streams.map Prod.fst).filter (fun s => force || bf s))

/-- `StreamTracker.flush_streams_if_required`. -/
def flushStreamsIfRequired (wb : String → Except String Unit) (bf : String → Bool)
    (force : Bool) (t : StreamTracker) :
    Except (String × StreamTracker) (StreamTracker × List JsonVal) :=
  match flushLoop wb (streamsToFlushDecision bf force t).2 t with
  | .error p => .error p
  | .ok t1 => .ok (emitSafeQueuedStates (streamsToFlushDecision bf force t).1 t1)

/-- Follows the spec's words for `safeThreshold()`: the minimum of
`flushWatermark[s]` over the registered streams `s` with
`hasReceivedRecords[s]`, or 0 if there is none. -/
def specSafeThreshold (t : StreamTracker) : Nat :=
  minD (((t.streams.map Prod.fst).filter (fun s => decide (s ∈ t.streams_added_to))).map
    (fun s => lookupD s t.stream_flush_watermarks))

/-- State after flushing (successfully) each stream of `ss` in order: only
the flush watermarks change, each to the stream's current add watermark. -/
def flushFold (ss : List String) (t : StreamTracker) : StreamTracker :=
  { t with
    stream_flush_watermarks :=
      ss.foldl (fun m x => updAssoc x (lookupD x t.stream_add_watermarks) m)
        t.stream_flush_watermarks }

/-- Decidable equality for `Except` results, used to evaluate the concrete
scenarios below. -/
instance {ε α : Type} [DecidableEq ε] [DecidableEq α] : DecidableEq (Except ε α) := fun x y =>
  match x, y with
  | .ok a, .ok b =>
    if h : a = b then isTrue (by rw [h]) else isFalse (fun hh => by cases hh; exact h rfl)
  | .error a, .error b =>
    if h : a = b then isTrue (by rw [h]) else isFalse (fun hh => by cases hh; exact h rfl)
  | .ok _, .error _ => isFalse (fun hh => by cases hh)
  | .error _, .ok _ => isFalse (fun hh => by cases hh)

/-- The all-successful `target.write_batch` collaborator. -/
def wbOk : String → Except String Unit := fun _ => .ok ()

/-- A `write_batch` collaborator that succeeds for `cats` and fails for
every other stream. -/
def wbDogsFail : String → Except String Unit := fun s =>
  if s = "cats" then .ok () else .error "boom"

/-- The `buffer_full` collaborator signal with no full buffers. -/
def bfNone : String → Bool := fun _ => false

/-!
Concrete scenario states, each obtained by running the tracker's operations
from the initial state (the defining traces are verified in the concrete
theorems below).
-/

/-- Streams `a` and `b` registered (default lag). -/
def cexBase : StreamTracker := registerStream "b" 2 (registerStream "a" 1 (initState true 1000000))

/-- After one record for `a`. -/
def cexAfterRecordA : StreamTracker :=
  { streams := [("a", 1), ("b", 2)]
    stream_add_watermarks := [("a", 1)]
    stream_flush_watermarks := [("a", 0), ("b", 0)]
    streams_added_to := ["a"]
    state_queue := []
    message_counter := 1
    last_emitted_state := .null
    emit_states := true
    max_watermark_lag := 1000000 }

/-- After flushing `a` (flush watermark 1). -/
def cexAfterFlushA : StreamTracker :=
  { cexAfterRecordA with stream_flush_watermarks := [("a", 1), ("b", 0)] }

/-- After the first record for `b`. -/
def cexAfterRecordB : StreamTracker :=
  { streams := [("a", 1), ("b", 2)]
    stream_add_watermarks := [("a", 1), ("b", 2)]
    stream_flush_watermarks := [("a", 1), ("b", 0)]
    streams_added_to := ["a", "b"]
    state_queue := []
    message_counter := 2
    last_emitted_state := .null
    emit_states := true
    max_watermark_lag := 1000000 }

/-- `cexAfterRecordB` after flushing `b`. -/
def c3wFlushed : StreamTracker :=
  { cexAfterRecordB with stream_flush_watermarks := [("a", 1), ("b", 2)] }

/-- `cexAfterRecordB` after a second record for `b`. -/
def c3wRecorded : StreamTracker :=
  { cexAfterRecordB with
    message_counter := 3
    stream_add_watermarks := [("a", 1), ("b", 3)] }

/-- Streams `cats` and `dogs` registered (default lag). -/
def witBase : StreamTracker :=
  registerStream "dogs" 2 (registerStream "cats" 1 (initState true 1000000))

/-- After one record for `cats`. -/
def witAfterRecord : StreamTracker :=
  { streams := [("cats", 1), ("dogs", 2)]
    stream_add_watermarks := [("cats", 1)]
    stream_flush_watermarks := [("cats", 0), ("dogs", 0)]
    streams_added_to := ["cats"]
    state_queue := []
    message_counter := 1
    last_emitted_state := .null
    emit_states := true
    max_watermark_lag := 1000000 }

/-- After a STATE message (watermark 1, unsafe, stays queued). -/
def witEnqueued : StreamTracker := (handleStateMessage (.str "A") witAfterRecord).1

/-- After a forced flush in which `cats` succeeded and `dogs` raised: the
queued marker became safe but was not emitted (the raise skipped the gate). -/
def witPartialFlush : StreamTracker :=
  { witAfterRecord with
    stream_flush_watermarks := [("cats", 1), ("dogs", 0)]
    state_queue := [⟨.str "A", 1⟩] }

/-- One stream `a` registered, `max_watermark_lag = 1`. -/
def c8Reg : StreamTracker := registerStream "a" 7 (initState true 1)

/-- After one record for `a` (lag 1, not yet above the maximum). -/
def c8Rec1 : StreamTracker :=
  { streams := [("a", 7)]
    stream_add_watermarks := [("a", 1)]
    stream_flush_watermarks := [("a", 0)]
    streams_added_to := ["a"]
    state_queue := []
    message_counter := 1
    last_emitted_state := .null
    emit_states := true
    max_watermark_lag := 1 }

/-- After a second record for `a`: lag 2 > 1, empty checkpoint queue. -/
def c8NoQueue : StreamTracker :=
  { c8Rec1 with message_counter := 2, stream_add_watermarks := [("a", 2)] }

/-- Lag 2 > 1 with a non-empty checkpoint queue. -/
def c8WithQueue : StreamTracker :=
  { c8NoQueue with state_queue := [⟨.str "B", 2⟩] }

/-- The truthy one-field object payload used in the dedup scenarios. -/
def c6Payload : JsonVal := .objCons "a" (.num 1) .objNil

/-- The initial state with the truthy payload enqueued (watermark 0, safe). -/
def c6FirstEnqueued : StreamTracker :=
  { initState true 1000000 with state_queue := [⟨c6Payload, 0⟩] }

/-- After emitting the truthy payload from the initial state. -/
def c6Mid : StreamTracker :=
  (handleStateMessage (.objCons "a" (.num 1) .objNil) (initState true 1000000)).1

/-- `c6Mid` with the falsy payload `ob cb` enqueued (the state on which the
second call's emission pass runs). -/
def c6Enqueued : StreamTracker :=
  { c6Mid with state_queue := c6Mid.state_queue ++ [⟨.objNil, c6Mid.message_counter⟩] }

/-- The no-premature-emission property of a state: every entry the gate pops
under `force = false` has its watermark — hence every record sequence number
at or below it — covered by the flush watermark of every stream that has
ever received a record. -/
def NoPrematureEmission (t : StreamTracker) : Prop :=
  ∀ e ∈ (popSafe false (safeFlushThreshold t) t.state_queue).1,
    ∀ s ∈ t.streams_added_to, ∀ g : Nat, g ≤ e.watermark →
      g ≤ lookupD s t.stream_flush_watermarks

/-- The only-latest-wins property of one emission pass: the pass pops exactly
the safe entries (all entries under `force`), keeps exactly the unsafe ones,
writes at most one line, and any written line is the last popped payload. -/
def OnlyLatestWins (t : StreamTracker) (force : Bool) : Prop :=
  (popSafe force (safeFlushThreshold t) t.state_queue).1 =
      t.state_queue.filter
        (fun e => force || decide (e.watermark ≤ safeFlushThreshold t)) ∧
  (emitSafeQueuedStates force t).1.state_queue =
      t.state_queue.filter
        (fun e => !(force || decide (e.watermark ≤ safeFlushThreshold t))) ∧
  (emitSafeQueuedStates force t).2.length ≤ 1 ∧
  ∀ v ∈ (emitSafeQueuedStates force t).2, ∃ e : CheckpointEntry,
    (popSafe force (safeFlushThreshold t) t.state_queue).1.getLast? = some e ∧ v = e.state

/-- The states of the enhanced tracker reachable through its public
operations, each instrumented with arbitrary collaborator behaviour. -/
inductive Reachable : StreamTracker → Prop where
  | init (es : Bool) (lag : Nat) : Reachable (initState es lag)
  | register (s : String) (h : Nat) {t : StreamTracker} :
      Reachable t → Reachable (registerStream s h t)
  | record (s : String) {t t' : StreamTracker} :
      Reachable t → handleRecordMessage s t = .ok t' → Reachable t'
  | stateMsg (v : JsonVal) {t : StreamTracker} :
      Reachable t → Reachable (handleStateMessage v t).1
  | flushOne (wb : String → Except String Unit) (s : String) {t : StreamTracker}
      {r : StreamTracker × List JsonVal} :
      Reachable t → flushStream wb s t = .ok r → Reachable r.1
  | flushOneErr (wb : String → Except String Unit) (s : String) {t : StreamTracker}
      {e : String} {t' : StreamTracker} :
      Reachable t → flushStream wb s t = .error (e, t') → Reachable t'
  | flushIfReq (wb : String → Except String Unit) (bf : String → Bool) (force : Bool)
      {t : StreamTracker} {r : StreamTracker × List JsonVal} :
      Reachable t → flushStreamsIfRequired wb bf force t = .ok r → Reachable r.1
  | flushIfReqErr (wb : String → Except String Unit) (bf : String → Bool) (force : Bool)
      {t : StreamTracker} {e : String} {t' : StreamTracker} :
      Reachable t → flushStreamsIfRequired wb bf force t = .error (e, t') → Reachable t'

/-! ### Association list lemmas -/

theorem lookupA_updAssoc_self {α : Type} (k : String) (v : α) (l : List (String × α)) :
    lookupA k (updAssoc k v l) = some v := by
  induction l with
  | nil => simp [updAssoc, lookupA]
  | cons p rest ih =>
    obtain ⟨k', v'⟩ := p
    by_cases h : k' = k
    · simp [updAssoc, h, lookupA]
    · simp [updAssoc, h, lookupA, ih]

theorem lookupA_updAssoc_ne {α : Type} {k k' : String} (v : α) (l : List (String × α))
    (h : k' ≠ k) : lookupA k' (updAssoc k v l) = lookupA k' l := by
  induction l with
  | nil =>
    simp only [updAssoc, lookupA]
    rw [if_neg (fun hh => h hh.symm)]
  | cons p rest ih =>
    obtain ⟨k₀, v₀⟩ := p
    by_cases hk : k₀ = k
    · subst hk
      have hne : ¬ (k₀ = k') := fun hh => h hh.symm
      simp [updAssoc, lookupA, hne]
    · simp only [updAssoc, if_neg hk, lookupA]
      by_cases hk0 : k₀ = k'
      · simp [hk0]
      · simp [hk0, ih]

theorem keys_updAssoc {α : Type} (k : String) (v : α) (l : List (String × α)) :
    (updAssoc k v l).map Prod.fst = insertKey k (l.map Prod.fst) := by
  induction l with
  | nil => simp [updAssoc, insertKey]
  | cons p rest ih =>
    obtain ⟨k₀, v₀⟩ := p
    by_cases hk : k₀ = k
    · subst hk
      simp [updAssoc, insertKey]
    · have hk' : ¬ k = k₀ := fun hh => hk hh.symm
      simp only [updAssoc, if_neg hk, List.map_cons, ih, insertKey, List.mem_cons]
      by_cases hmem : k ∈ rest.map Prod.fst
      · simp [hmem, hk']
      · simp [hmem, hk']

theorem mem_updAssoc {α : Type} {k k' : String} {v v' : α} : ∀ {l : List (String × α)},
    (k', v') ∈ updAssoc k v l → (k' = k ∧ v' = v) ∨ (k', v') ∈ l := by
  intro l
  induction l with
  | nil =>
    intro h
    simp only [updAssoc, List.mem_singleton] at h
    exact Or.inl ⟨congrArg Prod.fst h, congrArg Prod.snd h⟩
  | cons p rest ih =>
    intro h
    obtain ⟨k₀, v₀⟩ := p
    by_cases hk : k₀ = k
    · rw [updAssoc, if_pos hk] at h
      rcases List.mem_cons.mp h with h1 | h1
      · exact Or.inl ⟨congrArg Prod.fst h1, congrArg Prod.snd h1⟩
      · exact Or.inr (List.mem_cons_of_mem _ h1)
    · rw [updAssoc, if_neg hk] at h
      rcases List.mem_cons.mp h with h1 | h1
      · exact Or.inr (List.mem_cons.mpr (Or.inl h1))
      · rcases ih h1 with h2 | h2
        · exact Or.inl h2
        · exact Or.inr (List.mem_cons_of_mem _ h2)

theorem mem_updAssoc_of_ne {α : Type} {k k' : String} {v' : α} (v : α) {l : List (String × α)}
    (h : (k', v') ∈ l) (hne : k' ≠ k) : (k', v') ∈ updAssoc k v l := by
  induction l with
  | nil => cases h
  | cons p rest ih =>
    obtain ⟨k₀, v₀⟩ := p
    rcases List.mem_cons.mp h with h | h
    · have hk : ¬ k₀ = k := by
        rintro rfl
        exact hne (congrArg Prod.fst h)
      simp [updAssoc, hk, h]
    · by_cases hk : k₀ = k
      · subst hk
        simp only [updAssoc, if_pos rfl]
        exact List.mem_cons_of_mem _ h
      · simp only [updAssoc, if_neg hk]
        exact List.mem_cons_of_mem _ (ih h)

theorem lookupA_isSome_iff_mem_keys {α : Type} (k : String) (l : List (String × α)) :
    (lookupA k l).isSome = true ↔ k ∈ l.map Prod.fst := by
  induction l with
  | nil => simp [lookupA]
  | cons p rest ih =>
    obtain ⟨k₀, v₀⟩ := p
    by_cases hk : k₀ = k
    · subst hk
      simp [lookupA]
    · have hk' : ¬ k = k₀ := fun hh => hk hh.symm
      simp [lookupA, hk, hk', ih]

theorem mem_of_lookupA_eq_some {α : Type} {k : String} {v : α} {l : List (String × α)}
    (h : lookupA k l = some v) : (k, v) ∈ l := by
  induction l with
  | nil => simp [lookupA] at h
  | cons p rest ih =>
    obtain ⟨k₀, v₀⟩ := p
    by_cases hk : k₀ = k
    · subst hk
      rw [lookupA, if_pos rfl] at h
      injection h with h
      subst h
      exact List.mem_cons_self _ _
    · rw [lookupA, if_neg hk] at h
      exact List.mem_cons_of_mem _ (ih h)

theorem lookupA_eq_some_of_mem_nodup {α : Type} {k : String} {v : α} {l : List (String × α)}
    (hnd : (l.map Prod.fst).Nodup) (h : (k, v) ∈ l) : lookupA k l = some v := by
  induction l with
  | nil => cases h
  | cons p rest ih =>
    obtain ⟨k₀, v₀⟩ := p
    simp only [List.map_cons, List.nodup_cons] at hnd
    rcases List.mem_cons.mp h with h | h
    · have h1 : k₀ = k := (congrArg Prod.fst h).symm
      have h2 : v₀ = v := (congrArg Prod.snd h).symm
      simp [lookupA, h1, h2]
    · have hk : ¬ k₀ = k := by
        rintro rfl
        exact hnd.1 (List.mem_map.mpr ⟨(k₀, v), h, rfl⟩)
      simp only [lookupA, if_neg hk]
      exact ih hnd.2 h

theorem nodup_insertKey {k : String} {ks : List String} (h : ks.Nodup) :
    (insertKey k ks).Nodup := by
  unfold insertKey
  by_cases hk : k ∈ ks
  · simpa [hk]
  · simp [hk, List.nodup_append, h]

theorem mem_insertKey_of_mem {k x : String} {ks : List String} (h : x ∈ ks) :
    x ∈ insertKey k ks := by
  unfold insertKey
  by_cases hk : k ∈ ks
  · simpa [hk]
  · simp [hk, h]

/-! ### Lemmas about `minD` -/

theorem minD_le_of_mem {a : Nat} : ∀ {l : List Nat}, a ∈ l → minD l ≤ a
  | [], h => by cases h
  | [x], h => by
      rcases List.mem_singleton.mp h with rfl
      exact Nat.le_refl _
  | x :: y :: rest, h => by
      rcases List.mem_cons.mp h with rfl | h
      · exact Nat.min_le_left _ _
      · exact Nat.le_trans (Nat.min_le_right _ _) (minD_le_of_mem h)

theorem minD_mem : ∀ {l : List Nat}, l ≠ [] → minD l ∈ l
  | [], h => absurd rfl h
  | [x], _ => by simp [minD]
  | x :: y :: rest, _ => by
      rcases Nat.le_total x (minD (y :: rest)) with h | h
      · simp [minD, Nat.min_eq_left h]
      · have := @minD_mem (y :: rest) (by simp)
        simp only [minD, Nat.min_eq_right h]
        exact List.mem_cons_of_mem _ this

theorem minD_congr_mem {l l' : List Nat} (h : ∀ a, a ∈ l ↔ a ∈ l') : minD l = minD l' := by
  cases hl : l with
  | nil =>
    cases hl' : l' with
    | nil => rfl
    | cons b bs =>
      have : b ∈ l := (h b).mpr (hl' ▸ List.mem_cons_self b bs)
      rw [hl] at this
      cases this
  | cons a as =>
    cases hl' : l' with
    | nil =>
      have : a ∈ l' := (h a).mp (hl ▸ List.mem_cons_self a as)
      rw [hl'] at this
      cases this
    | cons b bs =>
      subst hl
      subst hl'
      apply Nat.le_antisymm
      · exact minD_le_of_mem ((h _).mpr (minD_mem (by simp)))
      · exact minD_le_of_mem ((h _).mp (minD_mem (by simp)))

theorem minD_le_minD {l l' : List Nat} (hne : l' ≠ [])
    (h : ∀ a ∈ l', ∃ b ∈ l, b ≤ a) : minD l ≤ minD l' := by
  obtain ⟨b, hb, hble⟩ := h _ (minD_mem hne)
  exact Nat.le_trans (minD_le_of_mem hb) hble

/-! ### Lemmas about `popSafe` -/

theorem popSafe_true (threshold : Nat) : ∀ q : List CheckpointEntry,
    popSafe true threshold q = (q, [])
  | [] => rfl
  | e :: rest => by simp [popSafe, popSafe_true threshold rest]

theorem popSafe_fst_watermark_le {threshold : Nat} :
    ∀ {q : List CheckpointEntry} {e : CheckpointEntry},
      e ∈ (popSafe false threshold q).1 → e.watermark ≤ threshold
  | [], e, h => by simp [popSafe] at h
  | e₀ :: rest, e, h => by
      by_cases hc : e₀.watermark ≤ threshold
      · simp only [popSafe, Bool.false_or, decide_eq_true_eq, if_pos hc] at h
        rcases List.mem_cons.mp h with rfl | h
        · exact hc
        · exact popSafe_fst_watermark_le h
      · simp [popSafe, hc] at h

theorem popSafe_snd_sublist (force : Bool) (threshold : Nat) :
    ∀ q : List CheckpointEntry, (popSafe force threshold q).2.Sublist q
  | [] => by simp [popSafe]
  | e :: rest => by
      by_cases hc : (force || decide (e.watermark ≤ threshold)) = true
      · simpa [popSafe, hc] using (popSafe_snd_sublist force threshold rest).cons e
      · simp [popSafe, hc]

theorem popSafe_fst_sublist (force : Bool) (threshold : Nat) :
    ∀ q : List CheckpointEntry, (popSafe force threshold q).1.Sublist q
  | [] => by simp [popSafe]
  | e :: rest => by
      by_cases hc : (force || decide (e.watermark ≤ threshold)) = true
      · simpa [popSafe, hc] using (popSafe_fst_sublist force threshold rest).cons₂ e
      · simp [popSafe, hc]

theorem popSafe_eq_filter {force : Bool} {threshold : Nat} {q : List CheckpointEntry}
    (hp : q.Pairwise (fun a b => a.watermark ≤ b.watermark)) :
    popSafe force threshold q =
      (q.filter (fun e => force || decide (e.watermark ≤ threshold)),
       q.filter (fun e => !(force || decide (e.watermark ≤ threshold)))) := by
  cases force with
  | true => simp [popSafe_true]
  | false =>
    simp only [Bool.false_or]
    induction hp with
    | nil => rfl
    | @cons e rest hhead htail ih =>
      by_cases hc : e.watermark ≤ threshold
      · simp [popSafe, hc, ih, List.filter_cons]
      · have hall : ∀ x ∈ rest, ¬ (x.watermark ≤ threshold) := fun x hx hle =>
          hc (Nat.le_trans (hhead x hx) hle)
        have h1 : rest.filter (fun x => decide (x.watermark ≤ threshold)) = [] :=
          List.filter_eq_nil_iff.mpr (fun x hx => by simpa using hall x hx)
        have h2 : rest.filter (fun x => !decide (x.watermark ≤ threshold)) = rest :=
          List.filter_eq_self.mpr (fun x hx => by simpa using hall x hx)
        simp [popSafe, hc, List.filter_cons, h1, h2]

/-! ### Small helpers -/

theorem insertKey_of_mem {k : String} {ks : List String} (h : k ∈ ks) :
    insertKey k ks = ks := by
  simp [insertKey, h]

theorem mem_insertS {x s : String} {l : List String} : x ∈ insertS s l ↔ x = s ∨ x ∈ l := by
  unfold insertS
  by_cases h : s ∈ l
  · simp only [if_pos h]
    constructor
    · exact Or.inr
    · rintro (rfl | hx)
      · exact h
      · exact hx
  · simp only [if_neg h, List.mem_append, List.mem_singleton]
    exact or_comm

/-! ### The reachability invariant -/

/-- Structural facts that hold in every reachable tracker state: flush
watermarks never exceed add watermarks, watermarks never exceed the global
message counter, streams with records are registered, the flush-watermark
dict has exactly the registered streams as keys (without duplicates), and
the checkpoint queue is sorted by watermark and bounded by the counter. -/
structure TrackerInv (t : StreamTracker) : Prop where
  flush_le_add : ∀ s : String,
    lookupD s t.stream_flush_watermarks ≤ lookupD s t.stream_add_watermarks
  add_le_counter : ∀ s : String, lookupD s t.stream_add_watermarks ≤ t.message_counter
  added_sub : ∀ s ∈ t.streams_added_to, s ∈ t.streams.map Prod.fst
  keys_eq : t.stream_flush_watermarks.map Prod.fst = t.streams.map Prod.fst
  keys_nodup : (t.streams.map Prod.fst).Nodup
  queue_sorted : t.state_queue.Pairwise (fun a b => a.watermark ≤ b.watermark)
  queue_le : ∀ e ∈ t.state_queue, e.watermark ≤ t.message_counter

theorem trackerInv_init (es : Bool) (lag : Nat) : TrackerInv (initState es lag) := by
  constructor <;> simp [initState, lookupD, lookupA]

theorem trackerInv_register (s : String) (hdl : Nat) {t : StreamTracker} (hi : TrackerInv t) :
    TrackerInv (registerStream s hdl t) := by
  constructor
  · intro x
    show lookupD x (updAssoc s 0 t.stream_flush_watermarks) ≤ lookupD x t.stream_add_watermarks
    by_cases hx : x = s
    · subst hx
      simp only [lookupD, lookupA_updAssoc_self, Option.getD_some]
      exact Nat.zero_le _
    · simp only [lookupD, lookupA_updAssoc_ne _ _ hx]
      exact hi.flush_le_add x
  · exact hi.add_le_counter
  · intro x hx
    show x ∈ (updAssoc s hdl t.streams).map Prod.fst
    rw [keys_updAssoc]
    exact mem_insertKey_of_mem (hi.added_sub x hx)
  · show (updAssoc s 0 t.stream_flush_watermarks).map Prod.fst =
      (updAssoc s hdl t.streams).map Prod.fst
    rw [keys_updAssoc, keys_updAssoc, hi.keys_eq]
  · show ((updAssoc s hdl t.streams).map Prod.fst).Nodup
    rw [keys_updAssoc]
    exact nodup_insertKey hi.keys_nodup
  · exact hi.queue_sorted
  · exact hi.queue_le

theorem handleRecordMessage_ok {s : String} {t t' : StreamTracker}
    (h : handleRecordMessage s t = .ok t') :
    (lookupA s t.streams).isSome = true ∧
    t' = { t with
           message_counter := t.message_counter + 1
           streams_added_to := insertS s t.streams_added_to
           stream_add_watermarks :=
             updAssoc s (t.message_counter + 1) t.stream_add_watermarks } := by
  by_cases hx : (lookupA s t.streams).isSome
  · rw [handleRecordMessage, if_pos hx] at h
    injection h with h
    exact ⟨hx, h.symm⟩
  · rw [handleRecordMessage, if_neg hx] at h
    cases h

theorem trackerInv_record {s : String} {t t' : StreamTracker} (hi : TrackerInv t)
    (h : handleRecordMessage s t = .ok t') : TrackerInv t' := by
  obtain ⟨hreg, rfl⟩ := handleRecordMessage_ok h
  constructor
  · intro x
    show lookupD x t.stream_flush_watermarks ≤
      lookupD x (updAssoc s (t.message_counter + 1) t.stream_add_watermarks)
    by_cases hx : x = s
    · subst hx
      have h1 : lookupD x t.stream_flush_watermarks ≤ t.message_counter :=
        Nat.le_trans (hi.flush_le_add x) (hi.add_le_counter x)
      simp only [lookupD, lookupA_updAssoc_self, Option.getD_some]
      exact Nat.le_trans h1 (Nat.le_succ _)
    · simp only [lookupD, lookupA_updAssoc_ne _ _ hx]
      exact hi.flush_le_add x
  · intro x
    show lookupD x (updAssoc s (t.message_counter + 1) t.stream_add_watermarks) ≤
      t.message_counter + 1
    by_cases hx : x = s
    · subst hx
      simp [lookupD, lookupA_updAssoc_self]
    · simp only [lookupD, lookupA_updAssoc_ne _ _ hx]
      exact Nat.le_trans (hi.add_le_counter x) (Nat.le_succ _)
  · intro x hx
    rcases mem_insertS.mp hx with rfl | hx
    · exact (lookupA_isSome_iff_mem_keys x t.streams).mp hreg
    · exact hi.added_sub x hx
  · exact hi.keys_eq
  · exact hi.keys_nodup
  · exact hi.queue_sorted
  · exact fun e he => Nat.le_trans (hi.queue_le e he) (Nat.le_succ _)

theorem writeBatch_ok {wb : String → Except String Unit} {s : String} {t t' : StreamTracker}
    (h : writeBatchAndUpdateWatermarks wb s t = .ok t') :
    (lookupA s t.streams).isSome = true ∧
    t' = { t with
           stream_flush_watermarks :=
             updAssoc s (lookupD s t.stream_add_watermarks) t.stream_flush_watermarks } := by
  cases hl : lookupA s t.streams with
  | none =>
    rw [writeBatchAndUpdateWatermarks] at h
    rw [hl] at h
    cases h
  | some b =>
    rw [writeBatchAndUpdateWatermarks] at h
    rw [hl] at h
    cases hw : wb s with
    | error e =>
      rw [hw] at h
      cases h
    | ok u =>
      rw [hw] at h
      injection h with h
      exact ⟨by simp [hl], h.symm⟩

theorem writeBatch_err {wb : String → Except String Unit} {s : String} {t : StreamTracker}
    {e : String} {t' : StreamTracker}
    (h : writeBatchAndUpdateWatermarks wb s t = .error (e, t')) : t' = t := by
  cases hl : lookupA s t.streams with
  | none =>
    rw [writeBatchAndUpdateWatermarks] at h
    rw [hl] at h
    injection h with h
    exact congrArg Prod.snd h.symm
  | some b =>
    rw [writeBatchAndUpdateWatermarks] at h
    rw [hl] at h
    cases hw : wb s with
    | error e0 =>
      rw [hw] at h
      injection h with h
      exact congrArg Prod.snd h.symm
    | ok u =>
      rw [hw] at h
      cases h

theorem trackerInv_writeBatch {wb : String → Except String Unit} {s : String}
    {t t' : StreamTracker} (hi : TrackerInv t)
    (h : writeBatchAndUpdateWatermarks wb s t = .ok t') : TrackerInv t' := by
  obtain ⟨hreg, rfl⟩ := writeBatch_ok h
  have hmem : s ∈ t.streams.map Prod.fst := (lookupA_isSome_iff_mem_keys s t.streams).mp hreg
  have hkeys : t.stream_flush_watermarks.map Prod.fst = t.streams.map Prod.fst := hi.keys_eq
  constructor
  · intro x
    show lookupD x (updAssoc s (lookupD s t.stream_add_watermarks) t.stream_flush_watermarks) ≤
      lookupD x t.stream_add_watermarks
    by_cases hx : x = s
    · subst hx
      simp [lookupD, lookupA_updAssoc_self]
    · simp only [lookupD, lookupA_updAssoc_ne _ _ hx]
      exact hi.flush_le_add x
  · exact hi.add_le_counter
  · exact hi.added_sub
  · show (updAssoc s (lookupD s t.stream_add_watermarks) t.stream_flush_watermarks).map
      Prod.fst = t.streams.map Prod.fst
    rw [keys_updAssoc, hkeys, insertKey_of_mem hmem]
  · exact hi.keys_nodup
  · exact hi.queue_sorted
  · exact hi.queue_le

theorem emit_shape (f : Bool) (t : StreamTracker) : ∃ le : JsonVal,
    (emitSafeQueuedStates f t).1 =
      { t with
        state_queue := (popSafe f (safeFlushThreshold t) t.state_queue).2
        last_emitted_state := le } := by
  unfold emitSafeQueuedStates
  cases hq : (popSafe f (safeFlushThreshold t) t.state_queue).1.getLast? with
  | none =>
    refine ⟨t.last_emitted_state, ?_⟩
    simp [hq]
  | some e =>
    by_cases ht : truthy e.state
    · by_cases hd : statediffNonempty e.state
        (if truthy t.last_emitted_state then t.last_emitted_state else .objNil) = true
      · refine ⟨e.state, ?_⟩
        simp [hq, ht, hd]
      · refine ⟨e.state, ?_⟩
        simp [hq, ht, hd]
    · refine ⟨t.last_emitted_state, ?_⟩
      simp [hq, ht]

theorem trackerInv_emit (f : Bool) {t : StreamTracker} (hi : TrackerInv t) :
    TrackerInv (emitSafeQueuedStates f t).1 := by
  obtain ⟨le, hshape⟩ := emit_shape f t
  rw [hshape]
  have hsub : (popSafe f (safeFlushThreshold t) t.state_queue).2.Sublist t.state_queue :=
    popSafe_snd_sublist f (safeFlushThreshold t) t.state_queue
  constructor
  · exact hi.flush_le_add
  · exact hi.add_le_counter
  · exact hi.added_sub
  · exact hi.keys_eq
  · exact hi.keys_nodup
  · exact hi.queue_sorted.sublist hsub
  · exact fun e he => hi.queue_le e (hsub.subset he)

theorem trackerInv_stateMsg (v : JsonVal) {t : StreamTracker} (hi : TrackerInv t) :
    TrackerInv (handleStateMessage v t).1 := by
  unfold handleStateMessage
  by_cases hes : t.emit_states
  · simp only [if_pos hes]
    apply trackerInv_emit
    constructor
    · exact hi.flush_le_add
    · exact hi.add_le_counter
    · exact hi.added_sub
    · exact hi.keys_eq
    · exact hi.keys_nodup
    · show (t.state_queue ++ [({ state := v, watermark := t.message_counter } :
        CheckpointEntry)]).Pairwise (fun a b => a.watermark ≤ b.watermark)
      rw [List.pairwise_append]
      refine ⟨hi.queue_sorted, List.pairwise_singleton _ _, ?_⟩
      intro a ha b hb
      rcases List.mem_singleton.mp hb with rfl
      exact hi.queue_le a ha
    · intro e he
      rcases List.mem_append.mp he with he | he
      · exact hi.queue_le e he
      · rcases List.mem_singleton.mp he with rfl
        exact Nat.le_refl _
  · simpa [hes] using hi

theorem trackerInv_flushLoop_ok {wb : String → Except String Unit} {ss : List String} :
    ∀ {t t' : StreamTracker}, TrackerInv t → flushLoop wb ss t = .ok t' → TrackerInv t' := by
  induction ss with
  | nil =>
    intro t t' hi h
    simp only [flushLoop] at h
    injection h with h
    exact h ▸ hi
  | cons s rest ih =>
    intro t t' hi h
    simp only [flushLoop] at h
    cases hw : writeBatchAndUpdateWatermarks wb s t with
    | error p =>
      rw [hw] at h
      cases h
    | ok t1 =>
      rw [hw] at h
      exact ih (trackerInv_writeBatch hi hw) h

theorem trackerInv_flushLoop_err {wb : String → Except String Unit} {ss : List String} :
    ∀ {t : StreamTracker} {e : String} {t' : StreamTracker}, TrackerInv t →
      flushLoop wb ss t = .error (e, t') → TrackerInv t' := by
  induction ss with
  | nil =>
    intro t e t' _ h
    simp only [flushLoop] at h
    cases h
  | cons s rest ih =>
    intro t e t' hi h
    simp only [flushLoop] at h
    cases hw : writeBatchAndUpdateWatermarks wb s t with
    | error p =>
      rw [hw] at h
      injection h with h
      obtain ⟨e0, t0⟩ := p
      have h1 : t0 = t := writeBatch_err hw
      subst h1
      have h2 : t' = t0 := congrArg Prod.snd h.symm
      exact h2 ▸ hi
    | ok t1 =>
      rw [hw] at h
      exact ih (trackerInv_writeBatch hi hw) h

theorem trackerInv_flushIfReq_ok {wb : String → Except String Unit} {bf : String → Bool}
    {force : Bool} {t : StreamTracker} {r : StreamTracker × List JsonVal} (hi : TrackerInv t)
    (h : flushStreamsIfRequired wb bf force t = .ok r) : TrackerInv r.1 := by
  unfold flushStreamsIfRequired at h
  cases hl : flushLoop wb (streamsToFlushDecision bf force t).2 t with
  | error p =>
    rw [hl] at h
    cases h
  | ok t1 =>
    rw [hl] at h
    injection h with h
    rw [← h]
    exact trackerInv_emit _ (trackerInv_flushLoop_ok hi hl)

theorem trackerInv_flushIfReq_err {wb : String → Except String Unit} {bf : String → Bool}
    {force : Bool} {t : StreamTracker} {e : String} {t' : StreamTracker} (hi : TrackerInv t)
    (h : flushStreamsIfRequired wb bf force t = .error (e, t')) : TrackerInv t' := by
  unfold flushStreamsIfRequired at h
  cases hl : flushLoop wb (streamsToFlushDecision bf force t).2 t with
  | error p =>
    rw [hl] at h
    injection h with h
    obtain ⟨e0, t0⟩ := p
    have h2 : t' = t0 := congrArg Prod.snd h.symm
    exact h2 ▸ trackerInv_flushLoop_err hi hl
  | ok t1 =>
    rw [hl] at h
    cases h

theorem trackerInv_flushOne_ok {wb : String → Except String Unit} {s : String}
    {t : StreamTracker} {r : StreamTracker × List JsonVal} (hi : TrackerInv t)
    (h : flushStream wb s t = .ok r) : TrackerInv r.1 := by
  unfold flushStream at h
  cases hw : writeBatchAndUpdateWatermarks wb s t with
  | error p =>
    rw [hw] at h
    cases h
  | ok t1 =>
    rw [hw] at h
    injection h with h
    rw [← h]
    exact trackerInv_emit _ (trackerInv_writeBatch hi hw)

theorem trackerInv_flushOne_err {wb : String → Except String Unit} {s : String}
    {t : StreamTracker} {e : String} {t' : StreamTracker} (hi : TrackerInv t)
    (h : flushStream wb s t = .error (e, t')) : TrackerInv t' := by
  unfold flushStream at h
  cases hw : writeBatchAndUpdateWatermarks wb s t with
  | error p =>
    rw [hw] at h
    injection h with h
    obtain ⟨e0, t0⟩ := p
    have h1 : t0 = t := writeBatch_err hw
    have h2 : t' = t0 := congrArg Prod.snd h.symm
    exact (h2.trans h1) ▸ hi
  | ok t1 =>
    rw [hw] at h
    cases h

/-- Every reachable state of the enhanced tracker satisfies the invariant. -/
theorem trackerInv_reachable {t : StreamTracker} (h : Reachable t) : TrackerInv t := by
  induction h with
  | init es lag => exact trackerInv_init es lag
  | register s hdl _ ih => exact trackerInv_register s hdl ih
  | record s _ heq ih => exact trackerInv_record ih heq
  | stateMsg v _ ih => exact trackerInv_stateMsg v ih
  | flushOne wb s _ heq ih => exact trackerInv_flushOne_ok ih heq
  | flushOneErr wb s _ heq ih => exact trackerInv_flushOne_err ih heq
  | flushIfReq wb bf force _ heq ih => exact trackerInv_flushIfReq_ok ih heq
  | flushIfReqErr wb bf force _ heq ih => exact trackerInv_flushIfReq_err ih heq

/-! ### Threshold lemmas -/

theorem threshold_le_of_added {t : StreamTracker} (hi : TrackerInv t) {s : String}
    (hs : s ∈ t.streams_added_to) :
    safeFlushThreshold t ≤ lookupD s t.stream_flush_watermarks := by
  have hmemk : s ∈ t.stream_flush_watermarks.map Prod.fst := by
    rw [hi.keys_eq]
    exact hi.added_sub s hs
  obtain ⟨w, hw⟩ := Option.isSome_iff_exists.mp ((lookupA_isSome_iff_mem_keys _ _).mpr hmemk)
  have hmem : (s, w) ∈ t.stream_flush_watermarks := mem_of_lookupA_eq_some hw
  have hmemf : (s, w) ∈ t.stream_flush_watermarks.filter
      (fun p => decide (p.1 ∈ t.streams_added_to)) :=
    List.mem_filter.mpr ⟨hmem, by simpa using hs⟩
  have hv : w ∈ (t.stream_flush_watermarks.filter
      (fun p => decide (p.1 ∈ t.streams_added_to))).map Prod.snd :=
    List.mem_map.mpr ⟨(s, w), hmemf, rfl⟩
  have h1 : safeFlushThreshold t ≤ w := minD_le_of_mem hv
  have h2 : lookupD s t.stream_flush_watermarks = w := by
    rw [lookupD, hw]
    rfl
  rw [h2]
  exact h1

theorem safeFlushThreshold_eq_spec {t : StreamTracker} (hi : TrackerInv t) :
    safeFlushThreshold t = specSafeThreshold t := by
  have hnd : (t.stream_flush_watermarks.map Prod.fst).Nodup := by
    rw [hi.keys_eq]
    exact hi.keys_nodup
  apply minD_congr_mem
  intro a
  constructor
  · intro ha
    obtain ⟨p, hpf, hpa⟩ := List.mem_map.mp ha
    obtain ⟨hpmem, hpdec⟩ := List.mem_filter.mp hpf
    obtain ⟨s, w⟩ := p
    have hadded : s ∈ t.streams_added_to := by simpa using hpdec
    have hkey : s ∈ t.streams.map Prod.fst := by
      rw [← hi.keys_eq]
      exact List.mem_map.mpr ⟨(s, w), hpmem, rfl⟩
    have hlook : lookupA s t.stream_flush_watermarks = some w :=
      lookupA_eq_some_of_mem_nodup hnd hpmem
    refine List.mem_map.mpr ⟨s, List.mem_filter.mpr ⟨hkey, by simpa using hadded⟩, ?_⟩
    rw [lookupD, hlook]
    exact hpa
  · intro ha
    obtain ⟨s, hsf, hsa⟩ := List.mem_map.mp ha
    obtain ⟨hskey, hsdec⟩ := List.mem_filter.mp hsf
    have hadded : s ∈ t.streams_added_to := by simpa using hsdec
    have hmemk : s ∈ t.stream_flush_watermarks.map Prod.fst := by
      rw [hi.keys_eq]
      exact hskey
    obtain ⟨w, hw⟩ := Option.isSome_iff_exists.mp ((lookupA_isSome_iff_mem_keys _ _).mpr hmemk)
    have hmem : (s, w) ∈ t.stream_flush_watermarks := mem_of_lookupA_eq_some hw
    have hval : lookupD s t.stream_flush_watermarks = w := by
      rw [lookupD, hw]
      rfl
    refine List.mem_map.mpr ⟨(s, w), List.mem_filter.mpr ⟨hmem, by simpa using hadded⟩, ?_⟩
    rw [← hsa, hval]

theorem threshold_zero_of_no_records {t : StreamTracker} (h : t.streams_added_to = []) :
    safeFlushThreshold t = 0 := by
  have hf : t.stream_flush_watermarks.filter
      (fun p => decide (p.1 ∈ t.streams_added_to)) = [] :=
    List.filter_eq_nil_iff.mpr (fun p _ => by simp [h])
  rw [safeFlushThreshold, hf]
  rfl

theorem threshold_mono_flush {wb : String → Except String Unit} {s : String}
    {t t' : StreamTracker} (hi : TrackerInv t)
    (h : writeBatchAndUpdateWatermarks wb s t = .ok t') :
    safeFlushThreshold t ≤ safeFlushThreshold t' := by
  obtain ⟨hreg, rfl⟩ := writeBatch_ok h
  by_cases hs : s ∈ t.streams_added_to
  · apply minD_le_minD
    · have hv : (s, lookupD s t.stream_add_watermarks) ∈
          updAssoc s (lookupD s t.stream_add_watermarks) t.stream_flush_watermarks :=
        mem_of_lookupA_eq_some (lookupA_updAssoc_self _ _ _)
      have : lookupD s t.stream_add_watermarks ∈
          ((updAssoc s (lookupD s t.stream_add_watermarks) t.stream_flush_watermarks).filter
            (fun p => decide (p.1 ∈ t.streams_added_to))).map Prod.snd :=
        List.mem_map.mpr ⟨_, List.mem_filter.mpr ⟨hv, by simpa using hs⟩, rfl⟩
      exact List.ne_nil_of_mem this
    · intro a ha
      obtain ⟨p, hpf, hpa⟩ := List.mem_map.mp ha
      obtain ⟨hpmem, hpdec⟩ := List.mem_filter.mp hpf
      obtain ⟨k, w⟩ := p
      have hkadded : k ∈ t.streams_added_to := by simpa using hpdec
      rcases mem_updAssoc hpmem with ⟨hks, hwv⟩ | hold
      · subst hks
        have hmemk : k ∈ t.stream_flush_watermarks.map Prod.fst := by
          rw [hi.keys_eq]
          exact (lookupA_isSome_iff_mem_keys _ _).mp hreg
        obtain ⟨w0, hw0⟩ :=
          Option.isSome_iff_exists.mp ((lookupA_isSome_iff_mem_keys _ _).mpr hmemk)
        have hmem0 : (k, w0) ∈ t.stream_flush_watermarks := mem_of_lookupA_eq_some hw0
        refine ⟨w0, List.mem_map.mpr ⟨(k, w0),
          List.mem_filter.mpr ⟨hmem0, by simpa using hkadded⟩, rfl⟩, ?_⟩
        have hle : lookupD k t.stream_flush_watermarks ≤ lookupD k t.stream_add_watermarks :=
          hi.flush_le_add k
        rw [lookupD, hw0] at hle
        rw [← hpa, hwv]
        exact hle
      · exact ⟨a, List.mem_map.mpr ⟨(k, w),
          List.mem_filter.mpr ⟨hold, by simpa using hkadded⟩, hpa⟩, Nat.le_refl a⟩
  · have heq : safeFlushThreshold
        { t with stream_flush_watermarks :=
            updAssoc s (lookupD s t.stream_add_watermarks) t.stream_flush_watermarks } =
        safeFlushThreshold t := by
      apply minD_congr_mem
      intro a
      constructor
      · intro ha
        obtain ⟨p, hpf, hpa⟩ := List.mem_map.mp ha
        obtain ⟨hpmem, hpdec⟩ := List.mem_filter.mp hpf
        obtain ⟨k, w⟩ := p
        have hkadded : k ∈ t.streams_added_to := by simpa using hpdec
        rcases mem_updAssoc hpmem with ⟨hks, _⟩ | hold
        · exact absurd (hks ▸ hkadded) hs
        · exact List.mem_map.mpr ⟨(k, w), List.mem_filter.mpr ⟨hold, hpdec⟩, hpa⟩
      · intro ha
        obtain ⟨p, hpf, hpa⟩ := List.mem_map.mp ha
        obtain ⟨hpmem, hpdec⟩ := List.mem_filter.mp hpf
        obtain ⟨k, w⟩ := p
        have hkadded : k ∈ t.streams_added_to := by simpa using hpdec
        have hkne : k ≠ s := fun hk => hs (hk ▸ hkadded)
        exact List.mem_map.mpr ⟨(k, w),
          List.mem_filter.mpr ⟨mem_updAssoc_of_ne _ hpmem hkne, hpdec⟩, hpa⟩
    rw [heq]

theorem threshold_record_same {s : String} {t t' : StreamTracker}
    (hs : s ∈ t.streams_added_to) (h : handleRecordMessage s t = .ok t') :
    safeFlushThreshold t' = safeFlushThreshold t := by
  obtain ⟨_, rfl⟩ := handleRecordMessage_ok h
  have hins : insertS s t.streams_added_to = t.streams_added_to := by
    simp [insertS, hs]
  simp [safeFlushThreshold, hins]

/-! ### The flush loop as a fold over the flush-watermark dict -/

theorem flushLoop_all_ok {wb : String → Except String Unit} (hwb : ∀ x, wb x = .ok ()) :
    ∀ (ss : List String) (t : StreamTracker),
      (∀ x ∈ ss, (lookupA x t.streams).isSome = true) →
      flushLoop wb ss t = .ok (flushFold ss t) := by
  intro ss
  induction ss with
  | nil =>
    intro t _
    simp [flushLoop, flushFold]
  | cons s rest ih =>
    intro t hreg
    obtain ⟨b, hb⟩ := Option.isSome_iff_exists.mp (hreg s (List.mem_cons_self s rest))
    simp only [flushLoop, writeBatchAndUpdateWatermarks, hb, hwb s]
    exact ih { t with
        stream_flush_watermarks :=
          updAssoc s (lookupD s t.stream_add_watermarks) t.stream_flush_watermarks }
      (fun x hx => hreg x (List.mem_cons_of_mem _ hx))

theorem lookupD_foldFlush (tAdd : List (String × Nat)) :
    ∀ (ss : List String) (m : List (String × Nat)) (k : String),
      lookupD k (ss.foldl (fun acc x => updAssoc x (lookupD x tAdd) acc) m) =
        if k ∈ ss then lookupD k tAdd else lookupD k m := by
  intro ss
  induction ss with
  | nil =>
    intro m k
    simp
  | cons s rest ih =>
    intro m k
    rw [List.foldl_cons, ih]
    by_cases hk : k ∈ rest
    · simp [hk]
    · by_cases hks : k = s
      · subst hks
        simp [hk, lookupD, lookupA_updAssoc_self]
      · simp [hk, hks, lookupD, lookupA_updAssoc_ne _ _ hks]

theorem flushLoop_err_eq {wb : String → Except String Unit} {s : String} {e : String}
    (ss₂ : List String) (hs : wb s = .error e) :
    ∀ (ss₁ : List String) (t : StreamTracker),
      (∀ x ∈ ss₁, wb x = .ok ()) →
      (∀ x ∈ ss₁, (lookupA x t.streams).isSome = true) →
      (lookupA s t.streams).isSome = true →
      flushLoop wb (ss₁ ++ s :: ss₂) t = .error (e, flushFold ss₁ t) := by
  intro ss₁
  induction ss₁ with
  | nil =>
    intro t _ _ hreg
    obtain ⟨b, hb⟩ := Option.isSome_iff_exists.mp hreg
    simp [flushLoop, writeBatchAndUpdateWatermarks, hb, hs, flushFold]
  | cons x rest ih =>
    intro t hok hreg hregs
    obtain ⟨b, hb⟩ := Option.isSome_iff_exists.mp (hreg x (List.mem_cons_self x rest))
    simp only [List.cons_append, flushLoop, writeBatchAndUpdateWatermarks, hb,
      hok x (List.mem_cons_self x rest)]
    exact ih { t with
        stream_flush_watermarks :=
          updAssoc x (lookupD x t.stream_add_watermarks) t.stream_flush_watermarks }
      (fun y hy => hok y (List.mem_cons_of_mem _ hy))
      (fun y hy => hreg y (List.mem_cons_of_mem _ hy)) hregs

theorem mem_streamsToFlushDecision {bf : String → Bool} {force : Bool} {t : StreamTracker}
    {x : String} (h : x ∈ (streamsToFlushDecision bf force t).2) :
    x ∈ t.streams.map Prod.fst := by
  unfold streamsToFlushDecision at h
  by_cases hc : t.state_queue.length > 0 ∧
      (t.message_counter : Int) - (safeFlushThreshold t : Int) > (t.max_watermark_lag : Int)
  · rw [if_pos hc] at h
    exact h
  · rw [if_neg hc] at h
    exact List.mem_of_mem_filter h

/-! ### Output shape of one emission pass -/

theorem emit_output_length (f : Bool) (t : StreamTracker) :
    (emitSafeQueuedStates f t).2.length ≤ 1 := by
  unfold emitSafeQueuedStates
  cases hq : (popSafe f (safeFlushThreshold t) t.state_queue).1.getLast? with
  | none => simp [hq]
  | some e =>
    by_cases ht : truthy e.state
    · by_cases hd : statediffNonempty e.state
          (if truthy t.last_emitted_state then t.last_emitted_state else .objNil) = true
      · simp [hq, ht, hd]
      · simp [hq, ht, hd]
    · simp [hq, ht]

theorem emit_output_eq_last {f : Bool} {t : StreamTracker} {v : JsonVal}
    (hv : v ∈ (emitSafeQueuedStates f t).2) :
    ∃ e : CheckpointEntry,
      (popSafe f (safeFlushThreshold t) t.state_queue).1.getLast? = some e ∧ v = e.state := by
  unfold emitSafeQueuedStates at hv
  cases hq : (popSafe f (safeFlushThreshold t) t.state_queue).1.getLast? with
  | none =>
    simp [hq] at hv
  | some e =>
    by_cases ht : truthy e.state
    · by_cases hd : statediffNonempty e.state
          (if truthy t.last_emitted_state then t.last_emitted_state else .objNil) = true
      · simp only [hq, ht, hd, if_true] at hv
        rcases List.mem_singleton.mp (by simpa using hv) with rfl
        exact ⟨e, rfl, rfl⟩
      · simp [hq, ht, hd] at hv
    · simp [hq, ht] at hv

/-! ### Reachability of the concrete scenario states -/

theorem reach_cexBase : Reachable cexBase :=
  .register "b" 2 (.register "a" 1 (.init true 1000000))

theorem reach_cexAfterRecordA : Reachable cexAfterRecordA :=
  .record "a" reach_cexBase (by decide)

theorem reach_cexAfterFlushA : Reachable cexAfterFlushA :=
  @Reachable.flushOne wbOk "a" cexAfterRecordA (cexAfterFlushA, [])
    reach_cexAfterRecordA (by decide)

theorem reach_cexAfterRecordB : Reachable cexAfterRecordB :=
  .record "b" reach_cexAfterFlushA (by decide)

theorem reach_witBase : Reachable witBase :=
  .register "dogs" 2 (.register "cats" 1 (.init true 1000000))

theorem reach_witAfterRecord : Reachable witAfterRecord :=
  .record "cats" reach_witBase (by decide)

theorem reach_witEnqueued : Reachable witEnqueued :=
  .stateMsg (.str "A") reach_witAfterRecord

theorem reach_witPartialFlush : Reachable witPartialFlush :=
  @Reachable.flushIfReqErr wbDogsFail bfNone true witEnqueued "boom" witPartialFlush
    reach_witEnqueued (by decide)

/-! ### The claims -/

/-- C1 (no premature emission): in every reachable state of the enhanced
tracker, every checkpoint entry the emission gate pops (and hence can choose
for output) under `force = false` satisfies: every record sequence number at
or below the entry's watermark is covered by the flush watermark of every
stream that has ever received a record. -/
theorem spec_C1_no_premature_emission {t : StreamTracker} (h : Reachable t) :
    NoPrematureEmission t := by
  intro e he s hs g hg
  have hwm : e.watermark ≤ safeFlushThreshold t := popSafe_fst_watermark_le he
  have hthr : safeFlushThreshold t ≤ lookupD s t.stream_flush_watermarks :=
    threshold_le_of_added (trackerInv_reachable h) hs
  exact Nat.le_trans (Nat.le_trans hg hwm) hthr

theorem spec_C1_witness :
    Reachable witPartialFlush ∧ NoPrematureEmission witPartialFlush :=
  ⟨reach_witPartialFlush, spec_C1_no_premature_emission reach_witPartialFlush⟩

/-- C2: in every reachable state, `_safe_flush_threshold` equals the minimum
of the flush watermarks over exactly the registered streams that have ever
received a record (the spec-side `specSafeThreshold`), and equals 0 when no
stream has ever received a record. -/
theorem spec_C2_safe_threshold {t : StreamTracker} (h : Reachable t) :
    safeFlushThreshold t = specSafeThreshold t ∧
    (t.streams_added_to = [] → safeFlushThreshold t = 0) :=
  ⟨safeFlushThreshold_eq_spec (trackerInv_reachable h), threshold_zero_of_no_records⟩

theorem spec_C2_witness :
    Reachable cexAfterRecordB ∧
    (safeFlushThreshold cexAfterRecordB = specSafeThreshold cexAfterRecordB ∧
      (cexAfterRecordB.streams_added_to = [] → safeFlushThreshold cexAfterRecordB = 0)) :=
  ⟨reach_cexAfterRecordB, spec_C2_safe_threshold reach_cexAfterRecordB⟩

/-- C3 is false as stated: the threshold is not non-decreasing over every
sequence of record-add and flush operations.  Concretely, with streams `a`
and `b` registered, after one record for `a` and a flush of `a` the
threshold is 1, and the very next operation — the first record for `b` —
drops it back to 0. -/
theorem spec_C3_counterexample :
    handleRecordMessage "a" cexBase = .ok cexAfterRecordA ∧
    writeBatchAndUpdateWatermarks wbOk "a" cexAfterRecordA = .ok cexAfterFlushA ∧
    safeFlushThreshold cexAfterFlushA = 1 ∧
    handleRecordMessage "b" cexAfterFlushA = .ok cexAfterRecordB ∧
    safeFlushThreshold cexAfterRecordB = 0 := by
  decide

/-- C3 amended: over record-add and flush operations the threshold is
non-decreasing except at the first record of a stream.  A flush
(`_write_batch_and_update_watermarks`) never decreases the threshold, and a
record-add (`handle_record_message`) for a stream that has already received
records leaves it unchanged. -/
theorem spec_C3_amended {t : StreamTracker} (h : Reachable t) (s : String)
    (wb : String → Except String Unit) {t₁ t₂ : StreamTracker}
    (hflush : writeBatchAndUpdateWatermarks wb s t = .ok t₁)
    (hrec : handleRecordMessage s t = .ok t₂) (hs : s ∈ t.streams_added_to) :
    safeFlushThreshold t ≤ safeFlushThreshold t₁ ∧
    safeFlushThreshold t₂ = safeFlushThreshold t :=
  ⟨threshold_mono_flush (trackerInv_reachable h) hflush, threshold_record_same hs hrec⟩

theorem spec_C3_witness :
    Reachable cexAfterRecordB ∧
    writeBatchAndUpdateWatermarks wbOk "b" cexAfterRecordB = .ok c3wFlushed ∧
    handleRecordMessage "b" cexAfterRecordB = .ok c3wRecorded ∧
    "b" ∈ cexAfterRecordB.streams_added_to ∧
    (safeFlushThreshold cexAfterRecordB ≤ safeFlushThreshold c3wFlushed ∧
      safeFlushThreshold c3wRecorded = safeFlushThreshold cexAfterRecordB) :=
  ⟨reach_cexAfterRecordB, by decide, by decide, by decide,
    spec_C3_amended reach_cexAfterRecordB "b" wbOk (by decide) (by decide) (by decide)⟩

/-- C4: in every reachable state of the enhanced tracker, every registered
stream's flush watermark is at most its add watermark (an absent add
watermark counting as 0). -/
theorem spec_C4_flush_le_add {t : StreamTracker} (h : Reachable t) :
    ∀ s ∈ t.streams.map Prod.fst,
      lookupD s t.stream_flush_watermarks ≤ lookupD s t.stream_add_watermarks :=
  fun s _ => (trackerInv_reachable h).flush_le_add s

theorem spec_C4_witness :
    Reachable witPartialFlush ∧
    ∀ s ∈ witPartialFlush.streams.map Prod.fst,
      lookupD s witPartialFlush.stream_flush_watermarks ≤
        lookupD s witPartialFlush.stream_add_watermarks :=
  ⟨reach_witPartialFlush, spec_C4_flush_le_add reach_witPartialFlush⟩

/-- C5 (only latest wins): in any single emission pass from a reachable
state, the gate pops from the front exactly the safe entries (all entries
when `force` is set), keeps exactly the unsafe ones, writes at most one
output line, and any written line carries the last popped entry's payload —
all earlier popped entries are discarded without output. -/
theorem spec_C5_only_latest_wins {t : StreamTracker} (h : Reachable t) (force : Bool) :
    OnlyLatestWins t force := by
  have hps := @popSafe_eq_filter force (safeFlushThreshold t) t.state_queue
    (trackerInv_reachable h).queue_sorted
  refine ⟨congrArg Prod.fst hps, ?_, emit_output_length force t,
    fun v hv => emit_output_eq_last hv⟩
  obtain ⟨le, hsh⟩ := emit_shape force t
  rw [hsh]
  exact congrArg Prod.snd hps

theorem spec_C5_witness :
    Reachable witPartialFlush ∧ OnlyLatestWins witPartialFlush false :=
  ⟨reach_witPartialFlush, spec_C5_only_latest_wins reach_witPartialFlush false⟩

/-- C6 is false as stated: the gate checks Python truthiness of the popped
payload, not whether an entry was popped.  Concretely, after emitting the
truthy payload, a second STATE message carrying the falsy payload `objNil`
is popped (the queue empties), its structural diff against LastEmitted is
non-empty, yet no line is written and LastEmitted is not updated. -/
theorem spec_C6_counterexample :
    (handleStateMessage (.objCons "a" (.num 1) .objNil) (initState true 1000000)).2 =
      [.objCons "a" (.num 1) .objNil] ∧
    c6Mid.last_emitted_state = .objCons "a" (.num 1) .objNil ∧
    (popSafe false (safeFlushThreshold c6Enqueued) c6Enqueued.state_queue).1.getLast? =
      some ⟨.objNil, 0⟩ ∧
    statediffNonempty .objNil
      (if truthy c6Mid.last_emitted_state then c6Mid.last_emitted_state else .objNil) = true ∧
    (handleStateMessage .objNil c6Mid).2 = [] ∧
    (handleStateMessage .objNil c6Mid).1.last_emitted_state =
      .objCons "a" (.num 1) .objNil := by
  decide

/-- C6 amended: when an emission pass pops at least one entry, the behaviour
depends on the truthiness of the last popped payload.  A truthy payload is
written exactly when its deep diff against LastEmitted (with a falsy or
initial LastEmitted read as the empty object) is non-empty, and LastEmitted
is unconditionally set to it either way — so the same structurally-equal
truthy payload chosen twice in a row yields exactly one line.  A falsy
payload produces no line and leaves LastEmitted unchanged. -/
theorem spec_C6_amended (force : Bool) (t : StreamTracker) {p : CheckpointEntry}
    (hpop : (popSafe force (safeFlushThreshold t) t.state_queue).1.getLast? = some p) :
    (truthy p.state = true →
      (emitSafeQueuedStates force t).1.last_emitted_state = p.state ∧
      ((emitSafeQueuedStates force t).2 = [p.state] ↔
        statediffNonempty p.state
          (if truthy t.last_emitted_state then t.last_emitted_state else .objNil) = true)) ∧
    (truthy p.state = false →
      (emitSafeQueuedStates force t).2 = [] ∧
      (emitSafeQueuedStates force t).1.last_emitted_state = t.last_emitted_state) := by
  refine ⟨fun ht => ?_, fun ht => ?_⟩
  · by_cases hd : statediffNonempty p.state
        (if truthy t.last_emitted_state then t.last_emitted_state else .objNil) = true
    · refine ⟨?_, ?_⟩
      · unfold emitSafeQueuedStates
        simp [hpop, ht, hd]
      · unfold emitSafeQueuedStates
        simp [hpop, ht, hd]
    · refine ⟨?_, ?_⟩
      · unfold emitSafeQueuedStates
        simp [hpop, ht, hd]
      · unfold emitSafeQueuedStates
        simp [hpop, ht, hd]
  · constructor
    · unfold emitSafeQueuedStates
      simp [hpop, ht]
    · unfold emitSafeQueuedStates
      simp [hpop, ht]

theorem spec_C6_witness :
    (popSafe false (safeFlushThreshold c6FirstEnqueued) c6FirstEnqueued.state_queue).1.getLast? =
      some ⟨c6Payload, 0⟩ ∧
    ((truthy c6Payload = true →
        (emitSafeQueuedStates false c6FirstEnqueued).1.last_emitted_state = c6Payload ∧
        ((emitSafeQueuedStates false c6FirstEnqueued).2 = [c6Payload] ↔
          statediffNonempty c6Payload
            (if truthy c6FirstEnqueued.last_emitted_state then
              c6FirstEnqueued.last_emitted_state else .objNil) = true)) ∧
      (truthy c6Payload = false →
        (emitSafeQueuedStates false c6FirstEnqueued).2 = [] ∧
        (emitSafeQueuedStates false c6FirstEnqueued).1.last_emitted_state =
          c6FirstEnqueued.last_emitted_state)) :=
  ⟨by decide, @spec_C6_amended false c6FirstEnqueued ⟨c6Payload, 0⟩ (by decide)⟩

/-- C7 is false as stated: re-registering an already-registered stream does
reset its flush watermark to zero.  Concretely, after stream `a` is flushed
to watermark 1, `register_stream` for `a` sets its flush watermark back
to 0. -/
theorem spec_C7_counterexample :
    (lookupA "a" cexAfterFlushA.streams).isSome = true ∧
    lookupD "a" cexAfterFlushA.stream_flush_watermarks = 1 ∧
    lookupD "a" (registerStream "a" 5 cexAfterFlushA).stream_flush_watermarks = 0 := by
  decide

/-- C7 amended: re-registering an already-registered stream replaces the
collaborator handle and preserves the stream's add watermark (and every
other stream's flush watermark), but resets the re-registered stream's own
flush watermark to zero. -/
theorem spec_C7_amended (s : String) (hdl : Nat) (t : StreamTracker)
    (_hreg : (lookupA s t.streams).isSome = true) :
    lookupA s (registerStream s hdl t).streams = some hdl ∧
    (registerStream s hdl t).stream_add_watermarks = t.stream_add_watermarks ∧
    lookupD s (registerStream s hdl t).stream_flush_watermarks = 0 ∧
    (∀ x, x ≠ s → lookupA x (registerStream s hdl t).stream_flush_watermarks =
      lookupA x t.stream_flush_watermarks) := by
  refine ⟨?_, rfl, ?_, ?_⟩
  · exact lookupA_updAssoc_self s hdl t.streams
  · show lookupD s (updAssoc s 0 t.stream_flush_watermarks) = 0
    simp [lookupD, lookupA_updAssoc_self]
  · intro x hx
    exact lookupA_updAssoc_ne 0 t.stream_flush_watermarks hx

theorem spec_C7_witness :
    (lookupA "b" cexAfterRecordB.streams).isSome = true ∧
    (lookupA "b" (registerStream "b" 9 cexAfterRecordB).streams = some 9 ∧
      (registerStream "b" 9 cexAfterRecordB).stream_add_watermarks =
        cexAfterRecordB.stream_add_watermarks ∧
      lookupD "b" (registerStream "b" 9 cexAfterRecordB).stream_flush_watermarks = 0 ∧
      (∀ x, x ≠ "b" →
        lookupA x (registerStream "b" 9 cexAfterRecordB).stream_flush_watermarks =
          lookupA x cexAfterRecordB.stream_flush_watermarks)) :=
  ⟨by decide, spec_C7_amended "b" 9 cexAfterRecordB (by decide)⟩

/-- C8 is false as stated: the lag guard is evaluated only when the
checkpoint queue is non-empty.  Concretely, with `max_watermark_lag = 1`,
two records and no queued checkpoint, the lag is 2 > 1, yet the next
`flush_streams_if_required` (no full buffers, `force = false`) flushes
nothing: the state is returned unchanged, stream `a` keeping flush
watermark 0 below add watermark 2. -/
theorem spec_C8_counterexample :
    handleRecordMessage "a" c8Reg = .ok c8Rec1 ∧
    handleRecordMessage "a" c8Rec1 = .ok c8NoQueue ∧
    ((c8NoQueue.message_counter : Int) - (safeFlushThreshold c8NoQueue : Int) >
      (c8NoQueue.max_watermark_lag : Int)) ∧
    flushStreamsIfRequired wbOk bfNone false c8NoQueue = .ok (c8NoQueue, []) ∧
    lookupD "a" c8NoQueue.stream_flush_watermarks = 0 ∧
    lookupD "a" c8NoQueue.stream_add_watermarks = 2 := by
  decide

/-- C8 amended: whenever the checkpoint queue is non-empty and
`GlobalSequence - safeThreshold` exceeds `maxWatermarkLag`, the next
`flush_streams_if_required` (with succeeding writes) flushes every
registered stream regardless of each buffer-full signal — every flush
watermark is advanced to the stream's add watermark — and invokes the
emission gate with force set, so the whole queue is drained. -/
theorem spec_C8_amended (t : StreamTracker) (wb : String → Except String Unit)
    (bf : String → Bool) (force : Bool) (hq : t.state_queue ≠ [])
    (hlag : (t.message_counter : Int) - (safeFlushThreshold t : Int) >
      (t.max_watermark_lag : Int))
    (hwb : ∀ x, wb x = .ok ()) :
    ∃ t' out, flushStreamsIfRequired wb bf force t = .ok (t', out) ∧
      (∀ s ∈ t.streams.map Prod.fst,
        lookupD s t'.stream_flush_watermarks = lookupD s t.stream_add_watermarks) ∧
      t'.state_queue = [] := by
  have hcond : t.state_queue.length > 0 ∧
      (t.message_counter : Int) - (safeFlushThreshold t : Int) >
        (t.max_watermark_lag : Int) :=
    ⟨List.length_pos.mpr hq, hlag⟩
  have hdec : streamsToFlushDecision bf force t = (true, t.streams.map Prod.fst) := by
    unfold streamsToFlushDecision
    rw [if_pos hcond]
  have h2 : (streamsToFlushDecision bf force t).2 = t.streams.map Prod.fst := by rw [hdec]
  have h1 : (streamsToFlushDecision bf force t).1 = true := by rw [hdec]
  have hregs : ∀ x ∈ t.streams.map Prod.fst, (lookupA x t.streams).isSome = true :=
    fun x hx => (lookupA_isSome_iff_mem_keys x t.streams).mpr hx
  have hloop := flushLoop_all_ok hwb (t.streams.map Prod.fst) t hregs
  obtain ⟨le, hsh⟩ := emit_shape true (flushFold (t.streams.map Prod.fst) t)
  refine ⟨(emitSafeQueuedStates true (flushFold (t.streams.map Prod.fst) t)).1,
    (emitSafeQueuedStates true (flushFold (t.streams.map Prod.fst) t)).2, ?_, ?_, ?_⟩
  · unfold flushStreamsIfRequired
    rw [h2, h1, hloop]
  · intro s hs
    rw [hsh]
    show lookupD s ((t.streams.map Prod.fst).foldl
        (fun m x => updAssoc x (lookupD x t.stream_add_watermarks) m)
        t.stream_flush_watermarks) = lookupD s t.stream_add_watermarks
    rw [lookupD_foldFlush t.stream_add_watermarks (t.streams.map Prod.fst)
      t.stream_flush_watermarks s, if_pos hs]
  · rw [hsh]
    show (popSafe true (safeFlushThreshold (flushFold (t.streams.map Prod.fst) t))
      (flushFold (t.streams.map Prod.fst) t).state_queue).2 = []
    rw [popSafe_true]

theorem spec_C8_witness :
    c8WithQueue.state_queue ≠ [] ∧
    ((c8WithQueue.message_counter : Int) - (safeFlushThreshold c8WithQueue : Int) >
      (c8WithQueue.max_watermark_lag : Int)) ∧
    (∃ t' out, flushStreamsIfRequired wbOk bfNone false c8WithQueue = .ok (t', out) ∧
      (∀ s ∈ c8WithQueue.streams.map Prod.fst,
        lookupD s t'.stream_flush_watermarks = lookupD s c8WithQueue.stream_add_watermarks) ∧
      t'.state_queue = []) :=
  ⟨by decide, by decide,
    spec_C8_amended c8WithQueue wbOk bfNone false (by decide) (by decide) (fun _ => rfl)⟩

/-- C9: when the batch-write collaborator raises partway through the flush
loop, the error propagates to the caller (as a raised exception, with no
retry and no output), the failing stream's flush watermark is unchanged,
streams flushed earlier in the same invocation keep their advanced
watermarks, and no checkpoint emission occurs: the queue and LastEmitted
are untouched. -/
theorem spec_C9_write_failure (t : StreamTracker) (wb : String → Except String Unit)
    (bf : String → Bool) (force : Bool) (ss₁ : List String) (s : String) (ss₂ : List String)
    (e : String) (hdec : (streamsToFlushDecision bf force t).2 = ss₁ ++ s :: ss₂)
    (hok : ∀ x ∈ ss₁, wb x = .ok ()) (herr : wb s = .error e) :
    ∃ t', flushStreamsIfRequired wb bf force t = .error (e, t') ∧
      lookupD s t'.stream_flush_watermarks = lookupD s t.stream_flush_watermarks ∧
      (∀ x ∈ ss₁, lookupD x t'.stream_flush_watermarks = lookupD x t.stream_add_watermarks) ∧
      t'.state_queue = t.state_queue ∧
      t'.last_emitted_state = t.last_emitted_state ∧
      t'.streams = t.streams ∧
      t'.stream_add_watermarks = t.stream_add_watermarks := by
  have hsnot : s ∉ ss₁ := by
    intro hmem
    have h1 := hok s hmem
    rw [herr] at h1
    cases h1
  have hregall : ∀ x ∈ ss₁ ++ s :: ss₂, (lookupA x t.streams).isSome = true := by
    intro x hx
    have hx2 : x ∈ (streamsToFlushDecision bf force t).2 := by
      rw [hdec]
      exact hx
    exact (lookupA_isSome_iff_mem_keys x t.streams).mpr (mem_streamsToFlushDecision hx2)
  have hreg1 : ∀ x ∈ ss₁, (lookupA x t.streams).isSome = true :=
    fun x hx => hregall x (List.mem_append_left _ hx)
  have hregs : (lookupA s t.streams).isSome = true :=
    hregall s (List.mem_append_right _ (List.mem_cons_self s ss₂))
  have hloop := flushLoop_err_eq ss₂ herr ss₁ t hok hreg1 hregs
  refine ⟨flushFold ss₁ t, ?_, ?_, ?_, rfl, rfl, rfl, rfl⟩
  · unfold flushStreamsIfRequired
    rw [hdec, hloop]
  · show lookupD s (ss₁.foldl
        (fun m x => updAssoc x (lookupD x t.stream_add_watermarks) m)
        t.stream_flush_watermarks) = lookupD s t.stream_flush_watermarks
    rw [lookupD_foldFlush t.stream_add_watermarks ss₁ t.stream_flush_watermarks s,
      if_neg hsnot]
  · intro x hx
    show lookupD x (ss₁.foldl
        (fun m x => updAssoc x (lookupD x t.stream_add_watermarks) m)
        t.stream_flush_watermarks) = lookupD x t.stream_add_watermarks
    rw [lookupD_foldFlush t.stream_add_watermarks ss₁ t.stream_flush_watermarks x,
      if_pos hx]

theorem spec_C9_witness :
    (streamsToFlushDecision bfNone true witEnqueued).2 = ["cats"] ++ "dogs" :: [] ∧
    (∀ x ∈ (["cats"] : List String), wbDogsFail x = .ok ()) ∧
    wbDogsFail "dogs" = .error "boom" ∧
    (∃ t', flushStreamsIfRequired wbDogsFail bfNone true witEnqueued = .error ("boom", t') ∧
      lookupD "dogs" t'.stream_flush_watermarks =
        lookupD "dogs" witEnqueued.stream_flush_watermarks ∧
      (∀ x ∈ (["cats"] : List String), lookupD x t'.stream_flush_watermarks =
        lookupD x witEnqueued.stream_add_watermarks) ∧
      t'.state_queue = witEnqueued.state_queue ∧
      t'.last_emitted_state = witEnqueued.last_emitted_state ∧
      t'.streams = witEnqueued.streams ∧
      t'.stream_add_watermarks = witEnqueued.stream_add_watermarks) :=
  ⟨by decide, by decide, by decide,
    spec_C9_write_failure witEnqueued wbDogsFail bfNone true ["cats"] "dogs" [] "boom"
      (by decide) (by decide) (by decide)⟩

/-- C10: `handle_record_message` raises the unregistered-stream `TargetError`
exactly when the stream is not registered, and in that case the tracker
state is completely unchanged (carried untouched by the raise); on a
registered stream it succeeds, incrementing the message counter by exactly
one, setting that stream's add watermark to the new counter value, marking
the stream as having received records, and changing nothing else. -/
theorem spec_C10_record_contract (s : String) (t : StreamTracker) :
    (∀ err tE, handleRecordMessage s t = .error (err, tE) ↔
      (lookupA s t.streams = none ∧ err = unregisteredStreamError s ∧ tE = t)) ∧
    (∀ t', handleRecordMessage s t = .ok t' →
      t'.message_counter = t.message_counter + 1 ∧
      lookupD s t'.stream_add_watermarks = t.message_counter + 1 ∧
      s ∈ t'.streams_added_to ∧
      t'.streams = t.streams ∧
      t'.stream_flush_watermarks = t.stream_flush_watermarks ∧
      t'.state_queue = t.state_queue ∧
      t'.last_emitted_state = t.last_emitted_state ∧
      (∀ x, x ≠ s → lookupA x t'.stream_add_watermarks = lookupA x t.stream_add_watermarks) ∧
      (∀ x, x ∈ t'.streams_added_to ↔ (x = s ∨ x ∈ t.streams_added_to))) ∧
    ((lookupA s t.streams).isSome = true → ∃ t', handleRecordMessage s t = .ok t') := by
  by_cases hreg : (lookupA s t.streams).isSome = true
  · have hok : handleRecordMessage s t = .ok { t with
        message_counter := t.message_counter + 1
        streams_added_to := insertS s t.streams_added_to
        stream_add_watermarks :=
          updAssoc s (t.message_counter + 1) t.stream_add_watermarks } := by
      rw [handleRecordMessage, if_pos hreg]
    refine ⟨?_, ?_, fun _ => ⟨_, hok⟩⟩
    · intro err tE
      constructor
      · intro h
        rw [hok] at h
        cases h
      · rintro ⟨hnone, _, _⟩
        rw [hnone] at hreg
        cases hreg
    · intro t' h
      rw [hok] at h
      injection h with h
      subst h
      refine ⟨rfl, ?_, ?_, rfl, rfl, rfl, rfl, ?_, ?_⟩
      · show lookupD s (updAssoc s (t.message_counter + 1) t.stream_add_watermarks) =
          t.message_counter + 1
        simp [lookupD, lookupA_updAssoc_self]
      · exact mem_insertS.mpr (Or.inl rfl)
      · intro x hx
        exact lookupA_updAssoc_ne _ _ hx
      · intro x
        exact mem_insertS
  · have hnone : lookupA s t.streams = none := by
      cases hk : lookupA s t.streams with
      | none => rfl
      | some b => exact absurd (by simp [hk]) hreg
    have herr : handleRecordMessage s t = .error (unregisteredStreamError s, t) := by
      rw [handleRecordMessage, if_neg hreg]
    refine ⟨?_, ?_, fun hcon => absurd hcon hreg⟩
    · intro err tE
      constructor
      · intro h
        rw [herr] at h
        injection h with h
        exact ⟨hnone, (congrArg Prod.fst h).symm, (congrArg Prod.snd h).symm⟩
      · rintro ⟨_, rfl, rfl⟩
        exact herr
    · intro t' h
      rw [herr] at h
      cases h

theorem spec_C10_witness :
    (handleRecordMessage "zebra" cexBase = .error (unregisteredStreamError "zebra", cexBase) ↔
      (lookupA "zebra" cexBase.streams = none ∧
        unregisteredStreamError "zebra" = unregisteredStreamError "zebra" ∧
        cexBase = cexBase)) ∧
    (∃ t', handleRecordMessage "a" cexBase = .ok t') :=
  ⟨(spec_C10_record_contract "zebra" cexBase).1 (unregisteredStreamError "zebra") cexBase,
   (spec_C10_record_contract "a" cexBase).2.2 (by decide)⟩
